import Mathlib

/-!
Verification development for the GridWorld tabular reinforcement-learning
trainer.  The definitions below are a shallow embedding of the JavaScript
sources (gridUtils.js, the RL-algorithm module, the training hooks): pure
functions become Lean functions over Int, Rat and List, the Q-table becomes
a list of rows, and the one stateful loop (runEpisode) threads its state
explicitly.  Where JavaScript dynamic typing determines the behaviour
(truthiness of 0, comparisons with undefined, array-to-number coercion),
the evaluated outcome is recorded next to the definition it affects.
-/

namespace GridWorld

/-- Cell kinds of the grid, from CELL_TYPES in constants.js. -/
inductive Cell
  | empty
  | wall
  | cellStart
  | cellGoal
  | agent
deriving DecidableEq

/-- A grid is a 2D array of cell kinds (row major), as built by createEmptyGrid. -/
abbrev Grid := List (List Cell)

/-- The four actions, from ACTIONS in constants.js. -/
inductive Action
  | up
  | down
  | left
  | right
deriving DecidableEq

/-- Enumeration order of the actions: Object.keys(ACTIONS) = [UP, DOWN, LEFT, RIGHT]. -/
def ACTIONS : List Action := [Action.up, Action.down, Action.left, Action.right]

/-- ACTION_VECTORS from constants.js: up (-1,0), down (1,0), left (0,-1), right (0,1). -/
def ACTION_VECTORS : Action → Int × Int
  | Action.up => (-1, 0)
  | Action.down => (1, 0)
  | Action.left => (0, -1)
  | Action.right => (0, 1)

/-- actionToIndex from the RL-algorithm module:
Object.keys(ACTIONS).indexOf(action.toUpperCase()), i.e. up 0, down 1, left 2, right 3. -/
def actionToIndex : Action → Nat
  | Action.up => 0
  | Action.down => 1
  | Action.left => 2
  | Action.right => 3

/-- positionsEqual from gridUtils.js: componentwise equality of the two pairs. -/
def positionsEqual (p q : Int × Int) : Bool :=
  p.1 == q.1 && p.2 == q.2

/-- isValidPosition from gridUtils.js:

  return row >= 0 && row < gridSize && col && col < gridSize;

The third conjunct is the raw value col, not a comparison: in JavaScript the
expression yields col itself (falsy) when col = 0, and yields col < gridSize
when col is a nonzero number.  As a truth value the result is therefore
0 <= row < gridSize AND col /= 0 AND col < gridSize; note col = 0 counts as
invalid and every negative col counts as valid. -/
def isValidPosition (row col gridSize : Int) : Bool :=
  decide (0 ≤ row) && decide (row < gridSize) && decide (col ≠ 0) && decide (col < gridSize)

/-- Array access grid[row][col] of the JavaScript embedding: none models the
JS value undefined (negative or too-large index). -/
def cellAt (grid : Grid) (row col : Int) : Option Cell :=
  if 0 ≤ row ∧ 0 ≤ col then
    (grid.get? row.toNat).bind (fun r => r.get? col.toNat)
  else
    none

/-- isWall from gridUtils.js: true when isValidPosition(row, col, grid.length)
fails, otherwise grid[row][col] === CELL_TYPES.WALL.  An access off the row
(possible because isValidPosition accepts negative col) yields undefined,
which is not === the wall string, hence false. -/
def isWall (grid : Grid) (row col : Int) : Bool :=
  if !(isValidPosition row col (grid.length : Int)) then true
  else cellAt grid row col == some Cell.wall

/-- getNextPosition from gridUtils.js: add the action vector to the position. -/
def getNextPosition (pos : Int × Int) (a : Action) : Int × Int :=
  (pos.1 + (ACTION_VECTORS a).1, pos.2 + (ACTION_VECTORS a).2)

/-- The call isValidPosition(row, col, undefined): the conjunct
row < undefined compares a number with undefined, which is false in
JavaScript, so the whole expression is falsy for every row and col. -/
def isValidPositionUndefinedSize (row col : Int) : Bool :=
  false

/-- The call isWall(GRID_PRESETS, r, c) made inside getValidActions:
GRID_PRESETS is the object of preset-name strings from constants.js, not a
grid, so GRID_PRESETS.length is undefined and
isValidPosition(r, c, undefined) is falsy; isWall therefore takes its
fail-closed branch and returns true for every r and c. -/
def isWallGridPresets (row col : Int) : Bool :=
  if !(isValidPositionUndefinedSize row col) then true
  else false

/-- getValidActions from gridUtils.js: iterate the actions in enumeration
order and keep those with isValidPosition(nextRow, nextCol, grid.length) and
not isWall(GRID_PRESETS, nextRow, nextCol).  The second test is against the
preset-name object (see isWallGridPresets), not against the grid argument. -/
def getValidActions (grid : Grid) (position : Int × Int) : List Action :=
  ACTIONS.filter (fun a =>
    let np := getNextPosition position a
    isValidPosition np.1 np.2 (grid.length : Int) && !(isWallGridPresets np.1 np.2))

/-- positionToState from gridUtils.js: row * gridSize + col. -/
def positionToState (position : Int × Int) (gridSize : Int) : Int :=
  position.1 * gridSize + position.2

/-- stateToPosition from gridUtils.js:
[Math.floor(state / gridSize), state % gridSize].  Math.floor of the real
quotient is floor division (Int.fdiv) and the JavaScript % operator is the
truncating remainder (Int.tmod). -/
def stateToPosition (state gridSize : Int) : Int × Int :=
  (Int.fdiv state gridSize, Int.tmod state gridSize)

/-- A reward structure, one of the named presets in REWARDS of constants.js. -/
structure RewardStructure where
  GOAL : ℚ
  STEP : ℚ
  WALL : ℚ
  OUT_OF_BOUNDS : ℚ

/-- REWARDS.DEFAULT from constants.js. -/
def REWARDS_DEFAULT : RewardStructure :=
  { GOAL := 100, STEP := -1, WALL := -10, OUT_OF_BOUNDS := -10 }

/-- calculateReward from the RL-algorithm module, with its own signature
(grid, currentPos, action, nextPos, goalPos, rewardStructure): out-of-bounds
penalty when isValidPosition(nextRow, nextCol, grid.length) fails, wall
penalty when isWall(grid, nextRow, nextCol), goal reward when nextPos equals
goalPos, step cost otherwise.  currentPos and action are unused. -/
def calculateReward (grid : Grid) (currentPos : Int × Int) (action : Action)
    (nextPos : Int × Int) (goalPos : Int × Int) (rs : RewardStructure) : ℚ :=
  if !(isValidPosition nextPos.1 nextPos.2 (grid.length : Int)) then rs.OUT_OF_BOUNDS
  else if isWall grid nextPos.1 nextPos.2 then rs.WALL
  else if positionsEqual nextPos goalPos then rs.GOAL
  else rs.STEP

/-- The Q-table of the RL-algorithm module: Array(numStates) of
Array(numActions) of numbers. -/
abbrev QTable := List (List ℚ)

/-- initializeQTable from the RL-algorithm module: gridSize * gridSize rows
of Object.keys(ACTIONS).length = 4 zeros. -/
def initializeQTable (gridSize : Nat) : QTable :=
  List.replicate (gridSize * gridSize) (List.replicate 4 0)

/-- Read qTable[state][actionIndex].  Out-of-range JavaScript access would
yield undefined; the theorems below only read entries that exist, where the
default 0 is never consulted. -/
def qget (q : QTable) (state actionIndex : Nat) : ℚ :=
  (q.getD state []).getD actionIndex 0

/-- Write qTable[state][actionIndex] = v. -/
def qset (q : QTable) (state actionIndex : Nat) (v : ℚ) : QTable :=
  q.set state ((q.getD state []).set actionIndex v)

/-- One step of the running-maximum folds used by qLearningUpdate,
epsilonGreedyAction, ucbAction and expectedSarsaUpdate: the accumulator none
models the JavaScript seed -Infinity, and the strict > keeps the earlier
value on ties. -/
def jsMaxStep : Option ℚ → ℚ → Option ℚ
  | none, v => some v
  | some m, v => if v > m then some v else some m

/-- maxNextQ computed inside qLearningUpdate: 0 when validNextActions is
empty, otherwise a forEach fold of qTable[nextState][actionToIndex a] with
strict > starting from -Infinity. -/
def maxNextQ (q : QTable) (nextState : Nat) (validNextActions : List Action) : ℚ :=
  if validNextActions.length > 0 then
    ((validNextActions.map (fun a => qget q nextState (actionToIndex a))).foldl jsMaxStep none).getD 0
  else 0

/-- qLearningUpdate from the RL-algorithm module: newQ = currentQ +
learningRate * (reward + discountFactor * maxNextQ - currentQ), written into
qTable[state][actionToIndex action]; the pair returned is the mutated table
and the returned newQ. -/
def qLearningUpdate (q : QTable) (state : Nat) (action : Action) (reward : ℚ)
    (nextState : Nat) (validNextActions : List Action)
    (learningRate discountFactor : ℚ) : QTable × ℚ :=
  let actionIndex := actionToIndex action
  let m := maxNextQ q nextState validNextActions
  let currentQ := qget q state actionIndex
  let newQ := currentQ + learningRate * (reward + discountFactor * m - currentQ)
  (qset q state actionIndex newQ, newQ)

/-- sarsaUpdate from the RL-algorithm module: newQ = currentQ +
learningRate * (reward + discountFactor * qTable[nextState][nextActionIndex]
- currentQ). -/
def sarsaUpdate (q : QTable) (state : Nat) (action : Action) (reward : ℚ)
    (nextState : Nat) (nextAction : Action)
    (learningRate discountFactor : ℚ) : QTable × ℚ :=
  let actionIndex := actionToIndex action
  let nextActionIndex := actionToIndex nextAction
  let currentQ := qget q state actionIndex
  let nextQ := qget q nextState nextActionIndex
  let newQ := currentQ + learningRate * (reward + discountFactor * nextQ - currentQ)
  (qset q state actionIndex newQ, newQ)

/-- The first-argmax fold shared (textually repeated) by the exploit branch
of epsilonGreedyAction, by ucbAction and by the best-action search of
expectedSarsaUpdate: best is initialised to l[0], the best value to
-Infinity (the accumulator none), and a forEach with strict > replaces it,
so the first element attaining the maximum of f wins. -/
def jsArgmax (f : Action → ℚ) (l : List Action) : Action :=
  (l.foldl
    (fun acc a =>
      match acc.2 with
      | none => (a, some (f a))
      | some m => if f a > m then (a, some (f a)) else acc)
    (l.headD Action.up, none)).1

/-- bestNextAction computed inside expectedSarsaUpdate over
qTable[nextState][actionToIndex a]. -/
def esBest (q : QTable) (nextState : Nat) (l : List Action) : Action :=
  jsArgmax (fun a => qget q nextState (actionToIndex a)) l

/-- The probability expectedSarsaUpdate gives an action of validNextActions:
greedyProb = 1 - epsilon + epsilon / n for the action === bestNextAction,
randomProb = epsilon / n for every other one (n = validNextActions.length). -/
def esProb (q : QTable) (nextState : Nat) (epsilon : ℚ) (l : List Action) (a : Action) : ℚ :=
  if a = esBest q nextState l then 1 - epsilon + epsilon / (l.length : ℚ)
  else epsilon / (l.length : ℚ)

/-- expectedNextQ computed inside expectedSarsaUpdate: 0 when
validNextActions is empty, otherwise the accumulated sum of
prob * qTable[nextState][actionToIndex a]. -/
def expectedNextQvalue (q : QTable) (nextState : Nat) (epsilon : ℚ) (l : List Action) : ℚ :=
  if l.length > 0 then
    l.foldl (fun acc a => acc + esProb q nextState epsilon l a * qget q nextState (actionToIndex a)) 0
  else 0

/-- expectedSarsaUpdate from the RL-algorithm module: newQ = currentQ +
learningRate * (reward + discountFactor * expectedNextQ - currentQ). -/
def expectedSarsaUpdate (q : QTable) (state : Nat) (action : Action) (reward : ℚ)
    (nextState : Nat) (validNextActions : List Action)
    (learningRate discountFactor epsilon : ℚ) : QTable × ℚ :=
  let actionIndex := actionToIndex action
  let expectedNextQ := expectedNextQvalue q nextState epsilon validNextActions
  let currentQ := qget q state actionIndex
  let newQ := currentQ + learningRate * (reward + discountFactor * expectedNextQ - currentQ)
  (qset q state actionIndex newQ, newQ)

/-- The params object threaded through the RL-algorithm module.  algorithm
and explorationStrategy are the string tags of constants.js; none models a
missing (undefined) field. -/
structure Params where
  learningRate : ℚ
  discountFactor : ℚ
  epsilon : ℚ
  temperature : ℚ
  algorithm : Option String
  explorationStrategy : Option String

/-- updateQTable from the RL-algorithm module.  A falsy params.algorithm is
warned about and the function returns undefined (modelled none) without
touching the table.  The switch runs sarsaUpdate only when nextAction is not
null, falling through to return 0 otherwise; the case tag for Expected SARSA
matches the string expected-sarsa; every other tag, including q-learning,
lands in the default branch running qLearningUpdate. -/
def updateQTable (q : QTable) (state : Nat) (action : Action) (reward : ℚ)
    (nextState : Nat) (validNextActions : List Action) (params : Params)
    (nextAction : Option Action) : QTable × Option ℚ :=
  match params.algorithm with
  | none => (q, none)
  | some tag =>
    if tag = "sarsa" then
      match nextAction with
      | some na =>
        let r := sarsaUpdate q state action reward nextState na params.learningRate params.discountFactor
        (r.1, some r.2)
      | none => (q, some 0)
    else if tag = "expected-sarsa" then
      let r := expectedSarsaUpdate q state action reward nextState validNextActions
        params.learningRate params.discountFactor params.epsilon
      (r.1, some r.2)
    else
      let r := qLearningUpdate q state action reward nextState validNextActions
        params.learningRate params.discountFactor
      (r.1, some r.2)

/-- epsilonGreedyAction from the RL-algorithm module, with the two
Math.random() draws passed in as r1 (the explore test) and r2 (the uniform
index draw, contract 0 <= r2 < 1): empty validActions returns ACTIONS.UP;
r1 < epsilon picks validActions[Math.floor(r2 * length)]; otherwise the
first-argmax of qTable[state][actionToIndex a] over validActions. -/
def epsilonGreedyAction (q : QTable) (state : Nat) (epsilon : ℚ)
    (validActions : List Action) (r1 r2 : ℚ) : Action :=
  if validActions.isEmpty then Action.up
  else if r1 < epsilon then
    validActions.getD (Int.toNat ⌊r2 * (validActions.length : ℚ)⌋) Action.up
  else
    jsArgmax (fun a => qget q state (actionToIndex a)) validActions

/-- ucbAction from the RL-algorithm module.  counts is the actionCounts
table; a zero count is replaced by 1 through the JavaScript || 1.
sqrtLogTerm abstracts the irrational kernel
Math.sqrt(Math.log(totalSteps + 1) / count) as a function of the count
(totalSteps is fixed for the call); the selection is the first-argmax of
qValue + c * sqrtLogTerm count. -/
def ucbAction (q : QTable) (state : Nat) (validActions : List Action)
    (counts : Nat → Nat → ℚ) (sqrtLogTerm : ℚ → ℚ) (c : ℚ) : Action :=
  if validActions.isEmpty then Action.up
  else
    jsArgmax
      (fun a =>
        let cnt := counts state (actionToIndex a)
        let cnt := if cnt = 0 then 1 else cnt
        qget q state (actionToIndex a) + c * sqrtLogTerm cnt)
      validActions

/-- The cumulative-probability sampling loop of boltzmannAction: walk the
(action, probability) pairs accumulating the cumulative sum, return the
first action whose cumulative sum reaches the draw r, and fall back to the
given last action when the loop runs out. -/
def cumulativeSample (pairs : List (Action × ℚ)) (r cum : ℚ) (fallback : Action) : Action :=
  match pairs with
  | [] => fallback
  | (a, p) :: rest =>
    if r ≤ cum + p then a else cumulativeSample rest r (cum + p) fallback

/-- boltzmannAction from the RL-algorithm module.  expFn abstracts Math.exp;
the probabilities are expFn (qValue / temperature) normalised by their sum,
r is the Math.random() draw, and the fallback is
validActions[validActions.length - 1]. -/
def boltzmannAction (q : QTable) (state : Nat) (validActions : List Action)
    (temperature : ℚ) (expFn : ℚ → ℚ) (r : ℚ) : Action :=
  if validActions.isEmpty then Action.up
  else
    let expValues := validActions.map (fun a => expFn (qget q state (actionToIndex a) / temperature))
    let sumExp := expValues.foldl (fun s v => s + v) 0
    let probabilities := expValues.map (fun v => v / sumExp)
    cumulativeSample (validActions.zip probabilities) r 0
      (validActions.getD (validActions.length - 1) Action.up)

/-- selectAction from the RL-algorithm module.  The switch compares
params.explorationStrategy with EXPLORATION_STRATEGIES.UCB = ucb, then with
EXPLORATION_STRATEGIES.BOLTZMANN, which does not exist (constants.js spells
the key BOLTZMAN), so that case label is the JavaScript value undefined and
matches a missing strategy (none); everything else, including the actual
boltzman tag, falls to the epsilon-greedy default.  temperature || 1.0
replaces a falsy (zero or missing) temperature by 1. -/
def selectAction (q : QTable) (state : Nat) (validActions : List Action)
    (params : Params) (counts : Nat → Nat → ℚ) (sqrtLogTerm : ℚ → ℚ)
    (expFn : ℚ → ℚ) (r1 r2 : ℚ) : Action :=
  match params.explorationStrategy with
  | some tag =>
    if tag = "ucb" then
      ucbAction q state validActions counts sqrtLogTerm 2
    else
      epsilonGreedyAction q state params.epsilon validActions r1 r2
  | none =>
    boltzmannAction q state validActions
      (if params.temperature = 0 then 1 else params.temperature) expFn r2

/-- The call isValidPosition(nextPos, gridWorld.gridSize) made by executeStep
of the useQLearning hook passes the position pair where a row number is
expected: the array coerces through the string row,col to NaN, NaN >= 0 is
false, and isValidPosition returns false for every pair and every size. -/
def isValidPositionPairArg (nextPos : Int × Int) (gridSize : Int) : Bool :=
  false

/-- The reward computed by executeStep of the useQLearning hook.  It calls
calculateReward(currentPos, nextPosition, goalPos, grid, rewardStructure,
collision) against the signature (grid, currentPos, action, nextPos,
goalPos, rewardStructure), so nextPos binds the whole grid and
rewardStructure binds the collision boolean.  Destructuring the grid gives
row arrays for nextRow and nextCol; isValidPosition(nextRow, nextCol,
currentPos.length = 2) coerces the row array to NaN, hence false, and the
function returns rewardStructure.OUT_OF_BOUNDS, a property read on a
boolean: the JavaScript value undefined, modelled none. -/
def executeStepReward (currentPos nextPosition goalPos : Int × Int) (grid : Grid)
    (rs : RewardStructure) (collision : Bool) : Option ℚ :=
  none

/-- The record executeStep returns. -/
structure StepResult where
  nextState : Int
  nextPosition : Int × Int
  reward : Option ℚ
  isDone : Bool
  collision : Bool
deriving DecidableEq

/-- executeStep from the useQLearning hook: decode the state, apply the
action, test the move with isValidPosition(nextPos, gridSize) — which is
false for every move, see isValidPositionPairArg, so the position never
changes and every step is flagged a collision — and compute the reward
through the mis-ordered calculateReward call, see executeStepReward. -/
def executeStep (grid : Grid) (gridSize : Int) (goalPos : Int × Int)
    (rs : RewardStructure) (currentState : Int) (action : Action) : StepResult :=
  let currentPos := stateToPosition currentState gridSize
  let nextPos := getNextPosition currentPos action
  let isValidMove := isValidPositionPairArg nextPos gridSize && !(isWall grid nextPos.1 nextPos.2)
  let nextPosition := if isValidMove then nextPos else currentPos
  let nextState := positionToState nextPosition gridSize
  let reward := executeStepReward currentPos nextPosition goalPos grid rs (!isValidMove)
  let isDone := positionsEqual nextPosition goalPos
  { nextState := nextState, nextPosition := nextPosition, reward := reward,
    isDone := isDone, collision := !isValidMove }

/-- The epsilon value stored after one decay application of completeEpisode
in the useTraining hook: completeEpisode computes newEpsilon =
Math.max(minEpsilon, epsilon * (1 - epsilonDecay)) and hands it to
updateParameters, which stores Math.max(0, Math.min(1, newEpsilon ||
previous)); the JavaScript || keeps the previous epsilon when newEpsilon is
0 (falsy). -/
def applyEpsilonDecay (epsilon minEpsilon epsilonDecay : ℚ) : ℚ :=
  let newEpsilon := max minEpsilon (epsilon * (1 - epsilonDecay))
  max 0 (min 1 (if newEpsilon = 0 then epsilon else newEpsilon))

/-- The epsilon-decay step of completeEpisode in the useTraining hook, on
the state (epsilon, lastEpsilonUpdate): decay runs only when
currentEpisode - lastEpsilonUpdate >= 10, in which case lastEpsilonUpdate is
set to currentEpisode. -/
def completeEpisodeEpsilon (currentEpisode : Nat) (minEpsilon epsilonDecay : ℚ)
    (st : ℚ × Nat) : ℚ × Nat :=
  if 10 ≤ (currentEpisode : Int) - (st.2 : Int) then
    (applyEpsilonDecay st.1 minEpsilon epsilonDecay, currentEpisode)
  else st

/-- The (epsilon, lastEpsilonUpdate) state after n completed episodes of a
training run: completeEpisode runs with currentEpisode = 0, 1, 2, ... and
lastEpsilonUpdate starts at 0 (trainingRef initialisation). -/
def epsilonRun (minEpsilon epsilonDecay epsilon0 : ℚ) (n : Nat) : ℚ × Nat :=
  (List.range n).foldl
    (fun st e => completeEpisodeEpsilon e minEpsilon epsilonDecay st) (epsilon0, 0)

/-- The record runEpisode returns. -/
structure EpisodeResult where
  totalReward : ℚ
  steps : Nat
  trajectory : List (Int × Int)
  reachedGoal : Bool
deriving DecidableEq

/-- The while loop of runEpisode from the RL-algorithm module, with fuel =
maxSteps - steps (the loop guard steps < maxSteps).  The loop breaks when
the valid-action list is empty — before selecting an action — and otherwise
selects an action, computes the reward with calculateReward (here called
with its own argument order), moves only when the next position passes
isValidPosition and is not a wall, appends the new position to the
trajectory, updates the table through updateQTable (nextAction null) and
increments steps.  rand supplies the two Math.random() draws of step k.
The toNat conversions on the state indices are exact for every on-grid
position; the Q-table indices are only consulted after the empty-action
break, which the getValidActions embedding never passes. -/
def runEpisodeAux (grid : Grid) (goalPos : Int × Int) (params : Params)
    (rs : RewardStructure) (counts : Nat → Nat → ℚ) (sqrtLogTerm expFn : ℚ → ℚ)
    (rand : Nat → ℚ × ℚ) :
    Nat → QTable → Int × Int → ℚ → Nat → List (Int × Int) → EpisodeResult × QTable
  | 0, q, pos, total, steps, traj =>
    ({ totalReward := total, steps := steps, trajectory := traj,
       reachedGoal := positionsEqual pos goalPos }, q)
  | fuel + 1, q, pos, total, steps, traj =>
    if positionsEqual pos goalPos then
      ({ totalReward := total, steps := steps, trajectory := traj,
         reachedGoal := positionsEqual pos goalPos }, q)
    else
      let state := positionToState pos (grid.length : Int)
      let validActions := getValidActions grid pos
      if validActions.isEmpty then
        ({ totalReward := total, steps := steps, trajectory := traj,
           reachedGoal := positionsEqual pos goalPos }, q)
      else
        let action := selectAction q state.toNat validActions params counts
          sqrtLogTerm expFn (rand steps).1 (rand steps).2
        let nextPos := getNextPosition pos action
        let nextState := positionToState nextPos (grid.length : Int)
        let reward := calculateReward grid pos action nextPos goalPos rs
        let total2 := total + reward
        let moved := isValidPosition nextPos.1 nextPos.2 (grid.length : Int)
          && !(isWall grid nextPos.1 nextPos.2)
        let pos2 := if moved then nextPos else pos
        let traj2 := if moved then traj ++ [nextPos] else traj
        let validNextActions := getValidActions grid pos2
        let q2 := (updateQTable q state.toNat action reward nextState.toNat
          validNextActions params none).1
        runEpisodeAux grid goalPos params rs counts sqrtLogTerm expFn rand
          fuel q2 pos2 total2 (steps + 1) traj2

/-- runEpisode from the RL-algorithm module: gridSize = grid.length, agent
at startPos, zeroed reward and step counters, trajectory seeded with the
start position, then the while loop (default maxSteps 200). -/
def runEpisode (grid : Grid) (startPos goalPos : Int × Int) (q : QTable)
    (params : Params) (rs : RewardStructure) (maxSteps : Nat)
    (counts : Nat → Nat → ℚ) (sqrtLogTerm expFn : ℚ → ℚ)
    (rand : Nat → ℚ × ℚ) : EpisodeResult × QTable :=
  runEpisodeAux grid goalPos params rs counts sqrtLogTerm expFn rand
    maxSteps q startPos 0 0 [startPos]

/-! Helper lemmas. -/

theorem getD_set_same {α : Type} (l : List α) (i : Nat) (v d : α)
    (h : i < l.length) : (l.set i v).getD i d = v := by
  simp [List.getD_eq_getElem?_getD, List.getElem?_set_self h]

theorem getD_set_other {α : Type} (l : List α) (i j : Nat) (v d : α)
    (h : i ≠ j) : (l.set i v).getD j d = l.getD j d := by
  simp [List.getD_eq_getElem?_getD, List.getElem?_set_ne h]

theorem qget_qset_same (q : QTable) (s i : Nat) (v : ℚ)
    (hs : s < q.length) (hi : i < (q.getD s []).length) :
    qget (qset q s i v) s i = v := by
  unfold qget qset
  rw [getD_set_same _ _ _ _ hs, getD_set_same _ _ _ _ hi]

theorem qget_qset_other (q : QTable) (s i s2 i2 : Nat) (v : ℚ)
    (h : ¬(s2 = s ∧ i2 = i)) : qget (qset q s i v) s2 i2 = qget q s2 i2 := by
  unfold qget qset
  by_cases hs : s2 = s
  · subst hs
    have hi : i ≠ i2 := fun he => h ⟨rfl, he.symm⟩
    rcases Nat.lt_or_ge s2 q.length with hlt | hge
    · rw [getD_set_same _ _ _ _ hlt, getD_set_other _ _ _ _ _ hi]
    · rw [List.set_eq_of_length_le hge]
  · rw [getD_set_other _ _ _ _ _ (fun he => hs he.symm)]

theorem jsMaxStep_fold_some (l : List ℚ) (b : ℚ) :
    ∃ m, l.foldl jsMaxStep (some b) = some m ∧ (m = b ∨ m ∈ l) ∧ b ≤ m ∧
      ∀ x ∈ l, x ≤ m := by
  induction l generalizing b with
  | nil => exact ⟨b, rfl, Or.inl rfl, le_refl b, by simp⟩
  | cons v t ih =>
    by_cases hv : v > b
    · have hstep : jsMaxStep (some b) v = some v := by simp [jsMaxStep, hv]
      obtain ⟨m, hm, hmem, hle, hub⟩ := ih v
      refine ⟨m, ?_, ?_, le_of_lt (lt_of_lt_of_le hv hle), ?_⟩
      · simpa [hstep] using hm
      · rcases hmem with h1 | h1
        · exact Or.inr (by simp [h1])
        · exact Or.inr (List.mem_cons_of_mem _ h1)
      · intro x hx
        rcases List.mem_cons.mp hx with h1 | h1
        · exact h1 ▸ hle
        · exact hub x h1
    · have hstep : jsMaxStep (some b) v = some b := by simp [jsMaxStep, hv]
      obtain ⟨m, hm, hmem, hle, hub⟩ := ih b
      refine ⟨m, ?_, ?_, hle, ?_⟩
      · simpa [hstep] using hm
      · rcases hmem with h1 | h1
        · exact Or.inl h1
        · exact Or.inr (List.mem_cons_of_mem _ h1)
      · intro x hx
        rcases List.mem_cons.mp hx with h1 | h1
        · exact h1 ▸ le_trans (le_of_not_lt hv) hle
        · exact hub x h1

theorem jsMaxStep_fold_none_spec (v : ℚ) (t : List ℚ) :
    ∃ m, (v :: t).foldl jsMaxStep none = some m ∧ m ∈ v :: t ∧
      ∀ x ∈ v :: t, x ≤ m := by
  have hstart : jsMaxStep none v = some v := rfl
  obtain ⟨m, hm, hmem, hle, hub⟩ := jsMaxStep_fold_some t v
  refine ⟨m, by simpa [hstart] using hm, ?_, ?_⟩
  · rcases hmem with h1 | h1
    · exact h1 ▸ List.mem_cons_self v t
    · exact List.mem_cons_of_mem _ h1
  · intro x hx
    rcases List.mem_cons.mp hx with h1 | h1
    · exact h1 ▸ hle
    · exact hub x h1

theorem maxNextQ_spec (q : QTable) (ns : Nat) (l : List Action) (h : l ≠ []) :
    maxNextQ q ns l ∈ l.map (fun a => qget q ns (actionToIndex a)) ∧
      ∀ a ∈ l, qget q ns (actionToIndex a) ≤ maxNextQ q ns l := by
  cases l with
  | nil => exact absurd rfl h
  | cons a t =>
    obtain ⟨m, hm, hmem, hub⟩ :=
      jsMaxStep_fold_none_spec (qget q ns (actionToIndex a))
        (t.map (fun x => qget q ns (actionToIndex x)))
    have hval : maxNextQ q ns (a :: t) = m := by
      simp only [maxNextQ, List.map_cons]
      rw [if_pos (by simp)]
      rw [hm]
      rfl
    rw [hval]
    constructor
    · simpa using hmem
    · intro x hx
      apply hub
      rcases List.mem_cons.mp hx with h1 | h1
      · simp [h1]
      · exact List.mem_cons_of_mem _ (List.mem_map_of_mem _ h1)

theorem jsArgmax_fold_mem (f : Action → ℚ) (l : List Action)
    (acc : Action × Option ℚ) :
    (l.foldl
      (fun acc a =>
        match acc.2 with
        | none => (a, some (f a))
        | some m => if f a > m then (a, some (f a)) else acc) acc).1 = acc.1 ∨
    (l.foldl
      (fun acc a =>
        match acc.2 with
        | none => (a, some (f a))
        | some m => if f a > m then (a, some (f a)) else acc) acc).1 ∈ l := by
  induction l generalizing acc with
  | nil => exact Or.inl rfl
  | cons a t ih =>
    simp only [List.foldl_cons]
    rcases hacc : acc.2 with _ | m
    · rcases ih (a, some (f a)) with h1 | h1
      · exact Or.inr (by simp [hacc, h1])
      · exact Or.inr (by simp [hacc]; exact Or.inr h1)
    · by_cases hgt : f a > m
      · rcases ih (a, some (f a)) with h1 | h1
        · exact Or.inr (by simp [hacc, hgt, h1])
        · exact Or.inr (by simp [hacc, hgt]; exact Or.inr h1)
      · rcases ih acc with h1 | h1
        · exact Or.inl (by simpa [hacc, hgt] using h1)
        · exact Or.inr (by simp [hacc, hgt]; exact Or.inr h1)

theorem jsArgmax_mem (f : Action → ℚ) (l : List Action) (h : l ≠ []) :
    jsArgmax f l ∈ l := by
  unfold jsArgmax
  rcases jsArgmax_fold_mem f l (l.headD Action.up, none) with h1 | h1
  · rw [h1]
    cases l with
    | nil => exact absurd rfl h
    | cons a t => exact List.mem_cons_self a t
  · exact h1

theorem cumulativeSample_mem (pairs : List (Action × ℚ)) (r cum : ℚ)
    (fallback : Action) :
    cumulativeSample pairs r cum fallback ∈ pairs.map Prod.fst ∨
      cumulativeSample pairs r cum fallback = fallback := by
  induction pairs generalizing cum with
  | nil => exact Or.inr rfl
  | cons p t ih =>
    rcases p with ⟨a, pr⟩
    simp only [cumulativeSample]
    by_cases hle : r ≤ cum + pr
    · rw [if_pos hle]
      exact Or.inl (by simp)
    · rw [if_neg hle]
      rcases ih (cum + pr) with h1 | h1
      · exact Or.inl (List.mem_cons_of_mem _ h1)
      · exact Or.inr h1

theorem getD_mem_of_lt {α : Type} (l : List α) (i : Nat) (d : α)
    (h : i < l.length) : l.getD i d ∈ l := by
  rw [List.getD_eq_getElem?_getD, List.getElem?_eq_getElem h]
  exact List.getElem_mem h

theorem foldl_add_eq_sum (g : Action → ℚ) (l : List Action) (c : ℚ) :
    l.foldl (fun acc a => acc + g a) c = c + (l.map g).sum := by
  induction l generalizing c with
  | nil => simp
  | cons a t ih => simp [ih (c + g a)]; ring

theorem sum_map_ite_not_mem (l : List Action) (b : Action) (c d : ℚ)
    (h : b ∉ l) :
    (l.map (fun a => if a = b then c else d)).sum = d * (l.length : ℚ) := by
  induction l with
  | nil => simp
  | cons a t ih =>
    have ha : a ≠ b := fun he => h (he ▸ List.mem_cons_self a t)
    have ht : b ∉ t := fun he => h (List.mem_cons_of_mem _ he)
    simp [ha, ih ht]
    ring

theorem sum_map_ite_nodup_mem (l : List Action) (b : Action) (c d : ℚ)
    (hm : b ∈ l) (hn : l.Nodup) :
    (l.map (fun a => if a = b then c else d)).sum = c + d * ((l.length : ℚ) - 1) := by
  induction l with
  | nil => exact absurd hm (List.not_mem_nil b)
  | cons a t ih =>
    rcases List.nodup_cons.mp hn with ⟨hat, hnt⟩
    by_cases hab : a = b
    · subst hab
      rw [List.map_cons, List.sum_cons, if_pos rfl, sum_map_ite_not_mem t a c d hat]
      simp only [List.length_cons]
      push_cast
      ring
    · have hbt : b ∈ t := by
        rcases List.mem_cons.mp hm with h1 | h1
        · exact absurd h1.symm hab
        · exact h1
      rw [List.map_cons, List.sum_cons, if_neg hab, ih hbt hnt]
      simp only [List.length_cons]
      push_cast
      ring

theorem applyEpsilonDecay_bounds (epsilon minEps d : ℚ) (h0 : 0 ≤ minEps)
    (h1 : minEps ≤ epsilon) (h2 : epsilon ≤ 1) (h3 : 0 ≤ d) (h4 : d ≤ 1) :
    minEps ≤ applyEpsilonDecay epsilon minEps d ∧
      applyEpsilonDecay epsilon minEps d ≤ epsilon := by
  have he0 : 0 ≤ epsilon := le_trans h0 h1
  have hmul : epsilon * (1 - d) ≤ epsilon :=
    mul_le_of_le_one_right he0 (by linarith)
  have hne_le : max minEps (epsilon * (1 - d)) ≤ epsilon := max_le h1 hmul
  have hne_0 : 0 ≤ max minEps (epsilon * (1 - d)) :=
    le_trans h0 (le_max_left _ _)
  simp only [applyEpsilonDecay]
  by_cases hz : max minEps (epsilon * (1 - d)) = 0
  · rw [if_pos hz, min_eq_right h2, max_eq_right he0]
    exact ⟨h1, le_refl epsilon⟩
  · rw [if_neg hz, min_eq_right (le_trans hne_le h2), max_eq_right hne_0]
    exact ⟨le_max_left _ _, hne_le⟩

theorem applyEpsilonDecay_formula (epsilon minEps d : ℚ) (h0 : 0 ≤ minEps)
    (hm1 : minEps ≤ 1) (he0 : 0 ≤ epsilon) (he1 : epsilon ≤ 1)
    (h3 : 0 ≤ d) (h4 : d ≤ 1/10) :
    applyEpsilonDecay epsilon minEps d = max minEps (epsilon * (1 - d)) := by
  have hmul0 : 0 ≤ epsilon * (1 - d) := mul_nonneg he0 (by linarith)
  have hmul1 : epsilon * (1 - d) ≤ 1 :=
    le_trans (mul_le_of_le_one_right he0 (by linarith)) he1
  have hne0 : 0 ≤ max minEps (epsilon * (1 - d)) :=
    le_trans h0 (le_max_left _ _)
  have hne1 : max minEps (epsilon * (1 - d)) ≤ 1 := max_le hm1 hmul1
  simp only [applyEpsilonDecay]
  by_cases hz : max minEps (epsilon * (1 - d)) = 0
  · have hminz : minEps = 0 :=
      le_antisymm (hz ▸ le_max_left minEps (epsilon * (1 - d))) h0
    have hmulz : epsilon * (1 - d) = 0 :=
      le_antisymm (hz ▸ le_max_right minEps (epsilon * (1 - d))) hmul0
    have hez : epsilon = 0 := by
      rcases mul_eq_zero.mp hmulz with h | h
      · exact h
      · exact absurd h (by intro hd; rw [sub_eq_zero] at hd; linarith)
    rw [if_pos hz, hz, hez]
    simp
  · rw [if_neg hz, min_eq_right hne1, max_eq_right hne0]

theorem epsilonRun_succ (minEps d e0 : ℚ) (n : Nat) :
    epsilonRun minEps d e0 (n + 1) =
      completeEpisodeEpsilon n minEps d (epsilonRun minEps d e0 n) := by
  unfold epsilonRun
  rw [List.range_succ, List.foldl_append]
  rfl

theorem epsilonRun_invariant (minEps d e0 : ℚ) (h0 : 0 ≤ minEps)
    (h1 : minEps ≤ e0) (h2 : e0 ≤ 1) (h3 : 0 ≤ d) (h4 : d ≤ 1) (n : Nat) :
    minEps ≤ (epsilonRun minEps d e0 n).1 ∧ (epsilonRun minEps d e0 n).1 ≤ 1 := by
  induction n with
  | zero => exact ⟨h1, h2⟩
  | succ k ih =>
    rw [epsilonRun_succ]
    unfold completeEpisodeEpsilon
    by_cases hg : 10 ≤ (k : Int) - ((epsilonRun minEps d e0 k).2 : Int)
    · rw [if_pos hg]
      obtain ⟨ha, hb⟩ := applyEpsilonDecay_bounds _ _ _ h0 ih.1 ih.2 h3 h4
      exact ⟨ha, le_trans hb ih.2⟩
    · rw [if_neg hg]
      exact ih

theorem epsilonRun_antitone_step (minEps d e0 : ℚ) (h0 : 0 ≤ minEps)
    (h1 : minEps ≤ e0) (h2 : e0 ≤ 1) (h3 : 0 ≤ d) (h4 : d ≤ 1) (n : Nat) :
    (epsilonRun minEps d e0 (n + 1)).1 ≤ (epsilonRun minEps d e0 n).1 := by
  rw [epsilonRun_succ]
  unfold completeEpisodeEpsilon
  obtain ⟨ha, hb⟩ := epsilonRun_invariant minEps d e0 h0 h1 h2 h3 h4 n
  by_cases hg : 10 ≤ (n : Int) - ((epsilonRun minEps d e0 n).2 : Int)
  · rw [if_pos hg]
    exact (applyEpsilonDecay_bounds _ _ _ h0 ha hb h3 h4).2
  · rw [if_neg hg]

/-! Concrete demonstration inputs. -/

/-- A 3 by 3 demonstration grid, empty except for a wall at (1, 2). -/
def wallGrid3 : Grid :=
  [[Cell.empty, Cell.empty, Cell.empty],
   [Cell.empty, Cell.empty, Cell.wall],
   [Cell.empty, Cell.empty, Cell.empty]]

/-- A fully empty 3 by 3 demonstration grid. -/
def emptyGrid3 : Grid :=
  [[Cell.empty, Cell.empty, Cell.empty],
   [Cell.empty, Cell.empty, Cell.empty],
   [Cell.empty, Cell.empty, Cell.empty]]

/-- Demonstration parameters: the default algorithm and strategy tags with
the default numeric parameters of the spec. -/
def demoParams : Params :=
  { learningRate := 1/10, discountFactor := 9/10, epsilon := 1/10,
    temperature := 1, algorithm := some "q-learning",
    explorationStrategy := some "epsilon-greedy" }

/-- A demonstration Q-table with two states and distinct entries. -/
def demoQ : QTable := [[1, 2, 3, 4], [5, 6, 7, 8]]

/-! Claim theorems. -/

/-- C1: the claim says a step whose target is a wall keeps the agent in
place and returns the wall penalty, exactly -10 under the default preset
(wall at (1,2), agent at (1,1), action right).  In executeStep of the
useQLearning hook the self-transition does happen — position and state are
unchanged — but the returned reward is the JavaScript value undefined
(modelled none), not -10: every move is flagged a collision by the
mis-called isValidPosition, and the reward comes from a calculateReward
invocation whose arguments are out of order (see executeStepReward).
Called with its own signature, calculateReward does return -10 for this
transition, which is the intended behaviour the claim describes. -/
theorem C1_executeStep_wall_reward_undefined :
    (executeStep wallGrid3 3 (2, 2) REWARDS_DEFAULT 4 Action.right).nextPosition = (1, 1) ∧
    (executeStep wallGrid3 3 (2, 2) REWARDS_DEFAULT 4 Action.right).nextState = 4 ∧
    (executeStep wallGrid3 3 (2, 2) REWARDS_DEFAULT 4 Action.right).reward = none ∧
    (executeStep wallGrid3 3 (2, 2) REWARDS_DEFAULT 4 Action.right).reward ≠ some (-10) ∧
    calculateReward wallGrid3 (1, 1) Action.right (1, 2) (2, 2) REWARDS_DEFAULT = -10 := by
  decide

/-- C2: the claim says isValidPosition(row, col, gridSize) is true exactly
when 0 <= row < gridSize and 0 <= col < gridSize, in particular at every
position with col = 0.  The code tests the raw value col instead of
col >= 0, so (0, 0) and (2, 0) on a 3 by 3 grid are reported invalid while
the out-of-bounds (0, -1) is reported valid. -/
theorem C2_isValidPosition_col_zero_bug :
    isValidPosition 0 0 3 = false ∧
    isValidPosition 2 0 3 = false ∧
    isValidPosition 0 (-1) 3 = true ∧
    isValidPosition 1 1 3 = true := by
  decide

/-- C3: the claim says getValidActions(grid, position) returns exactly the
actions whose target cell is in bounds and not a wall in the given grid.
The code instead queries isWall on the GRID_PRESETS constant, which is
treated as all-wall (see isWallGridPresets), so getValidActions returns the
empty list for every grid and every position — in particular at the centre
of an all-empty grid, where the claim expects all four actions. -/
theorem C3_getValidActions_always_empty (grid : Grid) (position : Int × Int) :
    getValidActions grid position = [] := by
  simp [getValidActions, isWallGridPresets, isValidPositionUndefinedSize]

/-- C4: positionToState followed by stateToPosition is the identity on
in-bounds positions: stateToPosition(row * gridSize + col) recovers (row,
col) whenever 0 <= row < gridSize and 0 <= col < gridSize. -/
theorem C4_state_position_roundtrip (row col gridSize : Int)
    (h1 : 0 ≤ row) (h2 : row < gridSize) (h3 : 0 ≤ col) (h4 : col < gridSize) :
    stateToPosition (positionToState (row, col) gridSize) gridSize = (row, col) := by
  have hg : 0 < gridSize := lt_of_le_of_lt h3 h4
  have hs : 0 ≤ row * gridSize + col :=
    add_nonneg (mul_nonneg h1 (le_of_lt hg)) h3
  have hshape : row * gridSize + col = col + row * gridSize := by ring
  simp only [stateToPosition, positionToState]
  rw [Int.fdiv_eq_ediv _ (le_of_lt hg), Int.tmod_eq_emod hs (le_of_lt hg), hshape,
    Int.add_mul_ediv_right col row (ne_of_gt hg), Int.ediv_eq_zero_of_lt h3 h4,
    Int.add_mul_emod_self, Int.emod_eq_of_lt h3 h4]
  simp

/-- Witness for C4 at row 2, col 1, gridSize 3: state 7 decodes back to (2, 1). -/
theorem C4_state_position_roundtrip_witness :
    stateToPosition (positionToState (2, 1) 3) 3 = (2, 1) :=
  C4_state_position_roundtrip 2 1 3 (by norm_num) (by norm_num) (by norm_num)
    (by norm_num)

/-- C5: qLearningUpdate returns the value
Q(s,a) + alpha * (r + gamma * M - Q(s,a)), writes exactly that value into
entry (s, actionToIndex a), M is 0 on an empty validNextActions list, and on
a non-empty list M is attained by some listed action and bounds the next
state values of all of them (it is their maximum). -/
theorem C5_qLearningUpdate_formula (q : QTable) (s : Nat) (a : Action) (r : ℚ)
    (ns : Nat) (l : List Action) (lr df : ℚ)
    (hs : s < q.length) (ha : actionToIndex a < (q.getD s []).length) :
    (qLearningUpdate q s a r ns l lr df).2 =
      qget q s (actionToIndex a) +
        lr * (r + df * maxNextQ q ns l - qget q s (actionToIndex a)) ∧
    qget (qLearningUpdate q s a r ns l lr df).1 s (actionToIndex a) =
      (qLearningUpdate q s a r ns l lr df).2 ∧
    maxNextQ q ns [] = 0 ∧
    (l ≠ [] → maxNextQ q ns l ∈ l.map (fun x => qget q ns (actionToIndex x)) ∧
      ∀ x ∈ l, qget q ns (actionToIndex x) ≤ maxNextQ q ns l) := by
  refine ⟨rfl, ?_, rfl, maxNextQ_spec q ns l⟩
  exact qget_qset_same q s (actionToIndex a) _ hs ha

/-- Witness for C5 at a concrete table: the written entry equals the
returned value. -/
theorem C5_qLearningUpdate_formula_witness :
    qget (qLearningUpdate demoQ 0 Action.left 1 1 [Action.down] (1/2) (9/10)).1
        0 (actionToIndex Action.left) =
      (qLearningUpdate demoQ 0 Action.left 1 1 [Action.down] (1/2) (9/10)).2 :=
  (C5_qLearningUpdate_formula demoQ 0 Action.left 1 1 [Action.down] (1/2) (9/10)
    (by decide) (by decide)).2.1

/-- C6: for a non-empty, duplicate-free validNextActions list the epsilon
greedy probabilities used by expectedSarsaUpdate — 1 - epsilon + epsilon/n
for the first argmax action, epsilon/n for every other action — sum to
exactly 1, and the expected next value accumulated by expectedSarsaUpdate is
exactly the probability-weighted sum of the next-state Q-values (a convex
combination with total weight 1). -/
theorem C6_expectedSarsa_probability_total (q : QTable) (ns : Nat) (epsilon : ℚ)
    (l : List Action) (h1 : l ≠ []) (h2 : l.Nodup) :
    (l.map (esProb q ns epsilon l)).sum = 1 ∧
    expectedNextQvalue q ns epsilon l =
      (l.map (fun a => esProb q ns epsilon l a * qget q ns (actionToIndex a))).sum := by
  have hmem : esBest q ns l ∈ l := jsArgmax_mem _ l h1
  have hpos : 0 < l.length := List.length_pos.mpr h1
  have hlen : (0 : ℚ) < (l.length : ℚ) := by exact_mod_cast hpos
  constructor
  · have hfun : esProb q ns epsilon l = fun a =>
        if a = esBest q ns l then 1 - epsilon + epsilon / (l.length : ℚ)
        else epsilon / (l.length : ℚ) := rfl
    rw [hfun, sum_map_ite_nodup_mem l (esBest q ns l) _ _ hmem h2]
    field_simp
    ring
  · unfold expectedNextQvalue
    rw [if_pos hpos, foldl_add_eq_sum, zero_add]

/-- Witness for C6 on the two-action list [up, right]. -/
theorem C6_expectedSarsa_probability_total_witness :
    ([Action.up, Action.right].map
      (esProb demoQ 1 (1/10) [Action.up, Action.right])).sum = 1 :=
  (C6_expectedSarsa_probability_total demoQ 1 (1/10) [Action.up, Action.right]
    (by decide) (by decide)).1

/-- C7 counterexample: with epsilon 0.1, minEpsilon 0.5 and epsilonDecay
0.01 — all inside the ranges updateParameters clamps to — the epsilon value
is 0.1 after 10 completed episodes and 0.5 after 11 (the decay at episode
10 raises it to minEpsilon), so the epsilon sequence of a training run is
not monotonically non-increasing as claimed. -/
theorem C7_counterexample_epsilon_increases :
    (epsilonRun (1/2) (1/100) (1/10) 10).1 = 1/10 ∧
    (epsilonRun (1/2) (1/100) (1/10) 11).1 = 1/2 ∧
    ¬((1 : ℚ)/2 ≤ 1/10) := by
  have hten : ∀ n : Nat, n ≤ 10 → epsilonRun (1/2) (1/100) (1/10) n = (1/10, 0) := by
    intro n hn
    induction n with
    | zero => rfl
    | succ k ih =>
      have hk : k < 10 := Nat.lt_of_succ_le hn
      rw [epsilonRun_succ, ih (Nat.le_of_succ_le hn)]
      unfold completeEpisodeEpsilon
      rw [if_neg (by omega)]
  have h11 : epsilonRun (1/2) (1/100) (1/10) 11 = ((1 : ℚ)/2, 10) := by
    rw [epsilonRun_succ, hten 10 (le_refl 10)]
    unfold completeEpisodeEpsilon
    rw [if_pos (by omega)]
    unfold applyEpsilonDecay
    have hmax : max ((1:ℚ)/2) ((1/10) * (1 - 1/100)) = 1/2 := by
      rw [max_eq_left]
      norm_num
    rw [hmax]
    norm_num
  refine ⟨by rw [hten 10 (le_refl 10)], by rw [h11], by norm_num⟩

/-- C7 amended: decay fires only when at least 10 episodes have completed
since the last decay; each application stores
max(minEpsilon, epsilon * (1 - epsilonDecay)) (given the clamped parameter
ranges 0 <= minEpsilon <= 1, 0 <= epsilonDecay <= 1/10 and an epsilon in
[0, 1]); and over a training run whose initial epsilon is at least
minEpsilon the epsilon sequence stays at or above minEpsilon and is
monotonically non-increasing. -/
theorem C7_amended_epsilon_decay (minEps d e0 : ℚ) (h0 : 0 ≤ minEps)
    (h1 : minEps ≤ e0) (h2 : e0 ≤ 1) (h3 : 0 ≤ d) (h4 : d ≤ 1/10) :
    (∀ (e : Nat) (st : ℚ × Nat), (e : Int) - (st.2 : Int) < 10 →
      completeEpisodeEpsilon e minEps d st = st) ∧
    (∀ (e : Nat) (st : ℚ × Nat), 10 ≤ (e : Int) - (st.2 : Int) →
      0 ≤ st.1 → st.1 ≤ 1 →
      (completeEpisodeEpsilon e minEps d st).1 = max minEps (st.1 * (1 - d))) ∧
    (∀ n : Nat, minEps ≤ (epsilonRun minEps d e0 n).1) ∧
    (∀ n : Nat, (epsilonRun minEps d e0 (n + 1)).1 ≤ (epsilonRun minEps d e0 n).1) := by
  have h4' : d ≤ 1 := le_trans h4 (by norm_num)
  refine ⟨?_, ?_, ?_, ?_⟩
  · intro e st h
    unfold completeEpisodeEpsilon
    rw [if_neg (not_le.mpr h)]
  · intro e st hg hs0 hs1
    unfold completeEpisodeEpsilon
    rw [if_pos hg]
    exact applyEpsilonDecay_formula st.1 minEps d h0 (le_trans h1 h2) hs0 hs1 h3 h4
  · intro n
    exact (epsilonRun_invariant minEps d e0 h0 h1 h2 h3 h4' n).1
  · intro n
    exact epsilonRun_antitone_step minEps d e0 h0 h1 h2 h3 h4' n

/-- Witness for the amended C7 with the default parameters: after the decay
at episode 10 the epsilon value is still at least minEpsilon and has not
increased. -/
theorem C7_amended_epsilon_decay_witness :
    (1 : ℚ)/100 ≤ (epsilonRun (1/100) (1/100) (1/10) 11).1 ∧
    (epsilonRun (1/100) (1/100) (1/10) 11).1 ≤ (epsilonRun (1/100) (1/100) (1/10) 10).1 :=
  ⟨(C7_amended_epsilon_decay (1/100) (1/100) (1/10) (by norm_num) (by norm_num)
      (by norm_num) (by norm_num) (by norm_num)).2.2.1 11,
   (C7_amended_epsilon_decay (1/100) (1/100) (1/10) (by norm_num) (by norm_num)
      (by norm_num) (by norm_num) (by norm_num)).2.2.2 10⟩

/-- C8: the claim says an episode ends only at the goal or at the step
limit.  runEpisode also breaks out of its loop when the valid-action list is
empty, and because getValidActions always returns the empty list this break
fires immediately: on an all-empty 3 by 3 grid with start (0,0) and goal
(2,2) the episode ends after 0 steps, with the one-entry trajectory [(0,0)],
total reward 0 and the goal not reached — neither of the two termination
causes the claim allows. -/
theorem C8_runEpisode_breaks_at_step_zero :
    (runEpisode emptyGrid3 (0, 0) (2, 2) (initializeQTable 3) demoParams
        REWARDS_DEFAULT 200 (fun _ _ => 0) (fun _ => 0) (fun _ => 0)
        (fun _ => (0, 0))).1.steps = 0 ∧
    (runEpisode emptyGrid3 (0, 0) (2, 2) (initializeQTable 3) demoParams
        REWARDS_DEFAULT 200 (fun _ _ => 0) (fun _ => 0) (fun _ => 0)
        (fun _ => (0, 0))).1.reachedGoal = false ∧
    (runEpisode emptyGrid3 (0, 0) (2, 2) (initializeQTable 3) demoParams
        REWARDS_DEFAULT 200 (fun _ _ => 0) (fun _ => 0) (fun _ => 0)
        (fun _ => (0, 0))).1.trajectory = [(0, 0)] ∧
    (runEpisode emptyGrid3 (0, 0) (2, 2) (initializeQTable 3) demoParams
        REWARDS_DEFAULT 200 (fun _ _ => 0) (fun _ => 0) (fun _ => 0)
        (fun _ => (0, 0))).1.totalReward = 0 := by
  decide

/-- C9: whatever the exploration-strategy tag, the Q-table, the parameters,
the visit counts and the random draws (with the Math.random contract
0 <= r2 < 1), selectAction returns a member of a non-empty validActions
list, and on an empty validActions list it returns the first configured
action, up. -/
theorem C9_selectAction_membership (q : QTable) (state : Nat) (params : Params)
    (counts : Nat → Nat → ℚ) (slt expFn : ℚ → ℚ) (r1 r2 : ℚ)
    (l : List Action) (h2 : 0 ≤ r2) (h3 : r2 < 1) :
    (l ≠ [] → selectAction q state l params counts slt expFn r1 r2 ∈ l) ∧
    selectAction q state [] params counts slt expFn r1 r2 = Action.up := by
  have hboltz : ∀ (T : ℚ), l ≠ [] →
      boltzmannAction q state l T expFn r2 ∈ l := by
    intro T hl
    unfold boltzmannAction
    rw [if_neg (by simpa [List.isEmpty_iff] using hl)]
    have hpos : 0 < l.length := List.length_pos.mpr hl
    rcases cumulativeSample_mem
        (l.zip ((l.map fun a => expFn (qget q state (actionToIndex a) / T)).map
          (fun v => v / (l.map fun a => expFn (qget q state (actionToIndex a) / T)).foldl
            (fun s x => s + x) 0)))
        r2 0 (l.getD (l.length - 1) Action.up) with hmem | hfb
    · rcases List.mem_map.mp hmem with ⟨⟨x, p⟩, hzip, hx⟩
      exact hx ▸ (List.of_mem_zip hzip).1
    · rw [hfb]
      exact getD_mem_of_lt l (l.length - 1) Action.up (by omega)
  have hgreedy : l ≠ [] →
      epsilonGreedyAction q state params.epsilon l r1 r2 ∈ l := by
    intro hl
    unfold epsilonGreedyAction
    rw [if_neg (by simpa [List.isEmpty_iff] using hl)]
    by_cases hr : r1 < params.epsilon
    · rw [if_pos hr]
      have hpos : 0 < l.length := List.length_pos.mpr hl
      have hlen : (0 : ℚ) < (l.length : ℚ) := by exact_mod_cast hpos
      have hmul0 : (0 : ℚ) ≤ r2 * (l.length : ℚ) := mul_nonneg h2 (le_of_lt hlen)
      have hmul1 : r2 * (l.length : ℚ) < (l.length : ℚ) := by
        have := mul_lt_mul_of_pos_right h3 hlen
        simpa using this
      have hfl0 : 0 ≤ ⌊r2 * (l.length : ℚ)⌋ := Int.le_floor.mpr (by exact_mod_cast hmul0)
      have hfl1 : ⌊r2 * (l.length : ℚ)⌋ < (l.length : Int) :=
        Int.floor_lt.mpr (by exact_mod_cast hmul1)
      have hidx : Int.toNat ⌊r2 * (l.length : ℚ)⌋ < l.length := by omega
      exact getD_mem_of_lt l _ Action.up hidx
    · rw [if_neg hr]
      exact jsArgmax_mem _ l hl
  constructor
  · intro hl
    unfold selectAction
    split
    next tag heq =>
      by_cases htag : tag = "ucb"
      · rw [if_pos htag]
        unfold ucbAction
        rw [if_neg (by simpa [List.isEmpty_iff] using hl)]
        exact jsArgmax_mem _ l hl
      · rw [if_neg htag]
        exact hgreedy hl
    next heq => exact hboltz _ hl
  · unfold selectAction
    split
    next tag heq =>
      by_cases htag : tag = "ucb"
      · rw [if_pos htag]
        rfl
      · rw [if_neg htag]
        rfl
    next heq => rfl

/-- Witness for C9: at a concrete table, epsilon-greedy strategy and draws
(0, 0) the selected action lies in [up, right], and the empty list falls
back to up. -/
theorem C9_selectAction_membership_witness :
    selectAction demoQ 0 [Action.up, Action.right] demoParams (fun _ _ => 0)
        (fun _ => 0) (fun _ => 0) 0 0 ∈ [Action.up, Action.right] ∧
    selectAction demoQ 0 [] demoParams (fun _ _ => 0) (fun _ => 0) (fun _ => 0)
        0 0 = Action.up :=
  ⟨(C9_selectAction_membership demoQ 0 demoParams (fun _ _ => 0) (fun _ => 0)
      (fun _ => 0) 0 0 [Action.up, Action.right] (by norm_num) (by norm_num)).1
      (by decide),
   (C9_selectAction_membership demoQ 0 demoParams (fun _ _ => 0) (fun _ => 0)
      (fun _ => 0) 0 0 [Action.up, Action.right] (by norm_num) (by norm_num)).2⟩

/-- C10: each of qLearningUpdate, sarsaUpdate and expectedSarsaUpdate writes
only the entry (s, actionToIndex a): every entry with a different state or a
different action index keeps its previous value, and the entry written holds
exactly the value the update returns. -/
theorem C10_updates_touch_single_entry (q : QTable) (s : Nat) (a : Action)
    (r : ℚ) (ns : Nat) (l : List Action) (na : Action) (lr df epsilon : ℚ)
    (hs : s < q.length) (ha : actionToIndex a < (q.getD s []).length) :
    (∀ s2 i2, ¬(s2 = s ∧ i2 = actionToIndex a) →
      qget (qLearningUpdate q s a r ns l lr df).1 s2 i2 = qget q s2 i2) ∧
    qget (qLearningUpdate q s a r ns l lr df).1 s (actionToIndex a) =
      (qLearningUpdate q s a r ns l lr df).2 ∧
    (∀ s2 i2, ¬(s2 = s ∧ i2 = actionToIndex a) →
      qget (sarsaUpdate q s a r ns na lr df).1 s2 i2 = qget q s2 i2) ∧
    qget (sarsaUpdate q s a r ns na lr df).1 s (actionToIndex a) =
      (sarsaUpdate q s a r ns na lr df).2 ∧
    (∀ s2 i2, ¬(s2 = s ∧ i2 = actionToIndex a) →
      qget (expectedSarsaUpdate q s a r ns l lr df epsilon).1 s2 i2 = qget q s2 i2) ∧
    qget (expectedSarsaUpdate q s a r ns l lr df epsilon).1 s (actionToIndex a) =
      (expectedSarsaUpdate q s a r ns l lr df epsilon).2 := by
  exact ⟨fun s2 i2 h => qget_qset_other q s (actionToIndex a) s2 i2 _ h,
    qget_qset_same q s (actionToIndex a) _ hs ha,
    fun s2 i2 h => qget_qset_other q s (actionToIndex a) s2 i2 _ h,
    qget_qset_same q s (actionToIndex a) _ hs ha,
    fun s2 i2 h => qget_qset_other q s (actionToIndex a) s2 i2 _ h,
    qget_qset_same q s (actionToIndex a) _ hs ha⟩

/-- Witness for C10: updating entry (0, 2) of the demonstration table leaves
entry (1, 3) unchanged. -/
theorem C10_updates_touch_single_entry_witness :
    qget (qLearningUpdate demoQ 0 Action.left 1 1 [Action.down] (1/2) (9/10)).1 1 3 =
      qget demoQ 1 3 :=
  (C10_updates_touch_single_entry demoQ 0 Action.left 1 1 [Action.down]
    Action.up (1/2) (9/10) (1/10) (by decide) (by decide)).1 1 3 (by decide)

end GridWorld
